import Mathlib

/-!
A shallow embedding of the core of the `futures-rs` library (files
`done.rs`, `failed.rs`, `promise.rs`, `select.rs`, `lib.rs`) together with
models of the collaborator modules (`token.rs`, `error.rs`, `util.rs`,
`slot.rs`) that the crate declares but whose sources are not present;
those are modelled from the specification.  Stateful Rust methods taking
`&mut self` become pure functions `state → args → result × state`.
-/

namespace Futures

/-- Rust's `Result<T, E>`. -/
inductive RResult (T E : Type) where
  | ok (v : T) : RResult T E
  | err (e : E) : RResult T E
deriving DecidableEq, Repr

/-- Modelled from the spec: the opaque `Panicked` payload (`Box<Any>`); the
embedded code produces only the "reused" payload (future polled after its
terminal result, `util::reused`) and the `Canceled` sentinel (promise whose
completer was dropped). -/
inductive Panic where
  | reused : Panic
  | canceled : Panic
deriving DecidableEq, Repr

/-- Modelled from the spec: `PollError<E>` from the missing `error.rs` —
`Other(E)` for a normal domain failure and `Panicked(payload)` for an
abnormal abort (§3). -/
inductive PollError (E : Type) where
  | other (e : E) : PollError E
  | panicked (p : Panic) : PollError E
deriving DecidableEq, Repr

/-- Modelled from the spec: `PollError::map` from the missing `error.rs`:
the mapping function transforms the domain error in the `Other` arm, while
`Panicked` propagates unchanged (§7: "`Panicked` always propagates through
every combinator unchanged"). -/
def PollError.map {E F : Type} (f : E → F) : PollError E → PollError F
  | .other e => .other (f e)
  | .panicked p => .panicked p

/-- `PollResult<T, E> = Result<T, PollError<E>>` (`error.rs`, §3). -/
abbrev PollResult (T E : Type) := RResult T (PollError E)

/-- Modelled from the spec: `Tokens` from the missing `token.rs` — a set of
wake identifiers, either the sentinel universe `all()` or a finite set of
IDs (§4.2). -/
inductive Tokens where
  | all : Tokens
  | ofSet (s : Finset ℕ) : Tokens
deriving DecidableEq

namespace Tokens

/-- Modelled from the spec: token-set union (`|`); when either operand is
`all` the result is `all` (§4.2). -/
def union : Tokens → Tokens → Tokens
  | all, _ => all
  | _, all => all
  | ofSet s, ofSet t => ofSet (s ∪ t)

/-- Modelled from the spec: token-set intersection (`&`); when either
operand is `all` the result is `all` (§4.2). -/
def inter : Tokens → Tokens → Tokens
  | all, _ => all
  | _, all => all
  | ofSet s, ofSet t => ofSet (s ∩ t)

/-- Modelled from the spec: `may_contain` — the conservative "do these sets
intersect?" test; returns `true` whenever either operand is `all` (§4.2). -/
def mayContain : Tokens → Tokens → Bool
  | all, _ => true
  | _, all => true
  | ofSet s, ofSet t => decide (s ∩ t).Nonempty

/-- Modelled from the spec: `Tokens::from_usize` — a singleton set (§4.2,
`from_id`). -/
def fromUsize (n : ℕ) : Tokens := ofSet {n}

/-- Membership of an identifier in a token set (`all` is the universe). -/
def mem (n : ℕ) : Tokens → Prop
  | all => True
  | ofSet s => n ∈ s

end Tokens

/-- Modelled from the spec: `util::opt2poll` from the missing `util.rs` —
turns the stored `Option` of a one-shot future into a poll result; `None`
(the value was already taken) yields the "reused" abort (§3, I1/I5). -/
def opt2poll {T E : Type} : Option T → PollResult T E
  | some v => .ok v
  | none => .err (.panicked .reused)

/-- Modelled from the spec: `util::reused` from the missing `util.rs` — the
`Panicked` error with the "reused" payload (§3, I1). -/
def utilReused {E : Type} : PollError E := .panicked .reused

/-- Modelled from the spec: the token set returned by `util::done(wake)`
from the missing `util.rs`: the waker is invoked once, synchronously, with
`Tokens::all()`, and `Tokens::all()` is returned (§4.3). -/
def utilDoneTokens : Tokens := Tokens.all

/-- The state of a `Done<T, E>` future: `inner: Option<Result<T, E>>`
(`done.rs`). -/
def DoneState (T E : Type) := Option (RResult T E)

/-- `Done::poll` (`done.rs` lines 38–42): take the stored result;
`util::opt2poll` turns an already-taken value into the "reused" abort, and
a stored `Err` becomes `PollError::Other`.  The `tokens` filter argument is
ignored (`_tokens` in the source). -/
def donePoll {T E : Type} (s : DoneState T E) (_tokens : Tokens) :
    Option (PollResult T E) × DoneState T E :=
  match s with
  | some (.ok v) => (some (.ok v), none)
  | some (.err e) => (some (.err (.other e)), none)
  | none => (some (.err (.panicked .reused)), none)

/-- `done(r)` (`done.rs` line 27): a `Done` with `inner = Some(r)`. -/
def doneNew {T E : Type} (r : RResult T E) : DoneState T E := some r

/-- `Done::tailcall` (`done.rs` lines 48–50): always `None`, no state
change. -/
def doneTailcall {T E β : Type} (s : DoneState T E) :
    Option β × DoneState T E := (none, s)

/-- The state of a `Failed<T, E>` future: `e: Option<E>` (`failed.rs`). -/
def FailedState (E : Type) := Option E

/-- `Failed::poll` (`failed.rs` lines 41–44): take the stored error and
wrap it as `PollError::Other`; an already-taken error becomes the "reused"
abort via `util::opt2poll`.  The filter argument is ignored. -/
def failedPoll {T E : Type} (s : FailedState E) (_tokens : Tokens) :
    Option (PollResult T E) × FailedState E :=
  match s with
  | some e => (some (.err (.other e)), none)
  | none => (some (.err (.panicked .reused)), none)

/-- `failed(e)` (`failed.rs` line 30): a `Failed` with `e = Some(e)`. -/
def failedNew {E : Type} (e : E) : FailedState E := some e

/-- `Failed::tailcall` (`failed.rs` lines 50–52): always `None`. -/
def failedTailcall {E β : Type} (s : FailedState E) :
    Option β × FailedState E := (none, s)

/-!
## Promise / Complete (`promise.rs`)

The shared `Inner` (slot + `pending_wake`) together with the promise-side
fields (`cancel_token`, `used`, `token`) is modelled as one record.  The
slot (`slot.rs`, missing; modelled from spec §6) holds
`Option<Result<T, E>>`; the only `on_full` callback ever installed is the
one from `Promise::schedule`, whose body is fixed (clear `pending_wake`,
then `wake(&tokens)`), so a live registration is recorded as the token set
it captured, and firing it is folded into the production step.  Calls to
`wake` are made observable as the list of token-set arguments emitted. -/

/-- The shared state of a `promise()` pair (`promise.rs` `Promise` +
`Inner`, with the spec-modelled slot of §6 inlined).  `slotVal` is the slot
contents (`none` = empty); `slotOnFull` is the armed `on_full` callback's
captured token set, if one is live; `slotOnEmpty` is a production queued by
`Complete::complete` via `on_empty` on a full slot. -/
structure PromiseState (T E : Type) where
  slotVal : Option (Option (RResult T E))
  slotOnFull : Option Tokens
  slotOnEmpty : Option (Option (RResult T E))
  pendingWake : Bool
  cancelToken : Bool
  used : Bool
  token : ℕ

/-- The promise half of `promise()` (`promise.rs` lines 65–86): empty slot,
no registrations, `used = false`, token drawn from the global counter
(passed in as a parameter). -/
def promiseNew (T E : Type) (token : ℕ) : PromiseState T E :=
  { slotVal := none, slotOnFull := none, slotOnEmpty := none,
    pendingWake := false, cancelToken := false, used := false, token := token }

/-- Modelled from the spec: the slot's `try_produce` (§6) at the promise's
state, with the single installed `on_full` callback's body
(`promise.rs` lines 164–167: clear `pending_wake`, then `wake(&tokens)`)
folded into the fire step.  Returns the new state, the emitted wake calls,
and whether the production succeeded (`false` = slot was full). -/
def promiseProduce {T E : Type} (s : PromiseState T E)
    (v : Option (RResult T E)) : PromiseState T E × List Tokens × Bool :=
  match s.slotVal with
  | some _ => (s, [], false)
  | none =>
    match s.slotOnFull with
    | some tk =>
        ({ s with slotVal := some v, slotOnFull := none, pendingWake := false },
         [tk], true)
    | none => ({ s with slotVal := some v }, [], true)

/-- `Complete::complete` (`promise.rs` lines 112–119): `try_produce`, and
on failure (slot full) queue the production through the slot's
`on_empty`. -/
def completeComplete {T E : Type} (s : PromiseState T E)
    (v : Option (RResult T E)) : PromiseState T E × List Tokens :=
  match promiseProduce s v with
  | (s', em, true) => (s', em)
  | (_, _, false) => ({ s with slotOnEmpty := some v }, [])

/-- `Complete::finish` (`promise.rs` lines 97–100): mark completed and
produce `Some(Ok(t))`.  Returns the new completed flag alongside. -/
def completeFinish {T E : Type} (s : PromiseState T E) (t : T) :
    PromiseState T E × List Tokens × Bool :=
  let (s', em) := completeComplete s (some (.ok t))
  (s', em, true)

/-- `Complete::fail` (`promise.rs` lines 107–110): mark completed and
produce `Some(Err(e))`. -/
def completeFail {T E : Type} (s : PromiseState T E) (e : E) :
    PromiseState T E × List Tokens × Bool :=
  let (s', em) := completeComplete s (some (.err e))
  (s', em, true)

/-- `Complete::drop` (`promise.rs` lines 122–131): if `finish`/`fail` was
never called, produce `None` into the slot. -/
def completeDrop {T E : Type} (completed : Bool) (s : PromiseState T E) :
    PromiseState T E × List Tokens :=
  if completed then (s, []) else completeComplete s none

/-- Modelled from the spec: the slot's `try_consume` (§6) at the promise's
state: remove the value if full; a production queued via `on_empty` then
runs against the now-empty slot. -/
def promiseTryConsume {T E : Type} (s : PromiseState T E) :
    Option (Option (RResult T E)) × PromiseState T E × List Tokens :=
  match s.slotVal with
  | none => (none, s, [])
  | some v =>
    let s1 := { s with slotVal := none }
    match s1.slotOnEmpty with
    | none => (some v, s1, [])
    | some q =>
        let (s2, em, _) := promiseProduce { s1 with slotOnEmpty := none } q
        (some v, s2, em)

/-- `Promise::poll` (`promise.rs` lines 136–149): return `None` while
`pending_wake` is set; otherwise `try_consume` the slot — a stored `Ok` is
the value, a stored `Err` becomes `PollError::Other`, a stored `None`
(completer dropped) becomes `Panicked(Canceled)`; an empty slot is the
"reused" abort when `used` is already set and `None` otherwise.  Any
terminal result sets `used`. -/
def promisePoll {T E : Type} (s : PromiseState T E) (_tokens : Tokens) :
    Option (PollResult T E) × PromiseState T E × List Tokens :=
  if s.pendingWake then (none, s, [])
  else
    match promiseTryConsume s with
    | (some (some (.ok v)), s', em) => (some (.ok v), { s' with used := true }, em)
    | (some (some (.err e)), s', em) =>
        (some (.err (.other e)), { s' with used := true }, em)
    | (some none, s', em) =>
        (some (.err (.panicked .canceled)), { s' with used := true }, em)
    | (none, s', em) =>
        if s.used then (some (.err (.panicked .reused)), { s' with used := true }, em)
        else (none, s', em)

/-- `Promise::schedule` (`promise.rs` lines 151–169): a used promise gets
`util::done` (immediate wake with `Tokens::all()`); otherwise compute the
singleton token set, cancel the outstanding `on_full` registration when
`pending_wake` is set, set `pending_wake`, and install the new `on_full`
callback — which fires inline (spec §6: invoked when the slot "becomes (or
is) full") if the slot is already full. -/
def promiseSchedule {T E : Type} (s : PromiseState T E) :
    Tokens × PromiseState T E × List Tokens :=
  let tokens := Tokens.fromUsize s.token
  if s.used then (utilDoneTokens, s, [Tokens.all])
  else
    let s1 :=
      if s.pendingWake then
        if s.cancelToken then { s with cancelToken := false, slotOnFull := none }
        else s
      else s
    let s2 := { s1 with pendingWake := true }
    match s2.slotVal with
    | some _ =>
        (tokens,
         { s2 with cancelToken := true, slotOnFull := none, pendingWake := false },
         [tokens])
    | none =>
        (tokens, { s2 with cancelToken := true, slotOnFull := some tokens }, [])

/-- `Promise::tailcall` (`promise.rs` lines 171–173): always `None`. -/
def promiseTailcall {T E β : Type} (s : PromiseState T E) :
    Option β × PromiseState T E := (none, s)

/-- `Promise::drop` (`promise.rs` lines 176–185): cancel any registered
slot callback. -/
def promiseDrop {T E : Type} (s : PromiseState T E) : PromiseState T E :=
  if s.cancelToken then { s with cancelToken := false, slotOnFull := none }
  else s

/-!
## Select / SelectNext (`select.rs`) and the `Collapsed` helper

The two children are abstract stateful futures: child states are type
parameters and the child methods (`poll`, `schedule`, `tailcall`) are
function parameters at exactly the interface `Select` uses.  `Collapsed`
(from the missing `util.rs`) is modelled from spec §4.5 and is what
`select.rs` stores for each child. -/

/-- Modelled from the spec: `util::Collapsed<F, T, E>` (§4.5) — either the
original inner future (`Start`) or its boxed tail-call replacement
(`Tail`). -/
inductive Collapsed (α β : Type) where
  | start (a : α) : Collapsed α β
  | tail (b : β) : Collapsed α β
deriving DecidableEq, Repr

/-- Modelled from the spec: `Collapsed::poll` "calls through to whichever
variant is current" (§4.5). -/
def Collapsed.pollC {α β R : Type} (pa : α → Tokens → R × α)
    (pb : β → Tokens → R × β) : Collapsed α β → Tokens → R × Collapsed α β
  | .start a, tk => let (r, a') := pa a tk; (r, .start a')
  | .tail b, tk => let (r, b') := pb b tk; (r, .tail b')

/-- Modelled from the spec: `Collapsed::collapse` "mutates
`Start(f) → Tail(g)` if `f.tailcall()` returned `Some(g)`, no-op
otherwise" (§4.5). -/
def Collapsed.collapse {α β : Type} (tc : α → Option β) :
    Collapsed α β → Collapsed α β
  | .start a => match tc a with
    | some b => .tail b
    | none => .start a
  | .tail b => .tail b

/-- `OneOf<A, B, ..>` (`select.rs` lines 35–43), the payload of a
`SelectNext`: whichever child lost the race. -/
inductive OneOf (σa σb : Type) where
  | A (a : σa) : OneOf σa σb
  | B (b : σb) : OneOf σa σb
deriving DecidableEq, Repr

/-- The state of a `Select` (`select.rs` lines 11–20): the two children
while the race is undecided, plus the token sets cached by the last
`schedule`. -/
structure SelectState (σa σb : Type) where
  inner : Option (σa × σb)
  aTokens : Tokens
  bTokens : Tokens

/-- `select::new` (`select.rs` lines 45–58): both children present, both
cached token sets `Tokens::all()`.  (The source additionally wraps each
child in `Collapsed::Start`; instantiate `σa := Collapsed α β` to see
that.) -/
def selectNew {σa σb : Type} (a : σa) (b : σb) : SelectState σa σb :=
  { inner := some (a, b), aTokens := Tokens.all, bTokens := Tokens.all }

/-- Packaging of the winner's result with the loser (`select.rs` lines
94–100): a winning `Ok(v)` pairs with the loser; a winning error is passed
through `PollError::map`, pairing only the `Other` payload with the
loser. -/
def selectMkRes {T E σa σb : Type} (r : PollResult T E) (next : OneOf σa σb) :
    PollResult (T × OneOf σa σb) (E × OneOf σa σb) :=
  match r with
  | .ok v => .ok (v, next)
  | .err e => .err (e.map fun e => (e, next))

/-- `Select::poll` (`select.rs` lines 69–101).  An exhausted `Select`
(`inner == None`) reports the "reused" abort.  Otherwise: when the filter
cannot contain `a_tokens`, only B is polled, with `tokens & b_tokens`;
otherwise A is polled with `tokens & a_tokens`, and on A's `None` the poll
returns `None` without touching B when the filter cannot contain
`b_tokens`, else B is polled with `tokens & b_tokens`.  A terminal child
result takes `inner` and pairs the value with the loser via
`selectMkRes`. -/
def selectPoll {T E σa σb : Type}
    (pollA : σa → Tokens → Option (PollResult T E) × σa)
    (pollB : σb → Tokens → Option (PollResult T E) × σb)
    (s : SelectState σa σb) (tokens : Tokens) :
    Option (PollResult (T × OneOf σa σb) (E × OneOf σa σb)) ×
      SelectState σa σb :=
  match s.inner with
  | none => (some (.err utilReused), s)
  | some (a, b) =>
    if s.aTokens.mayContain tokens = false then
      match pollB b (tokens.inter s.bTokens) with
      | (some rb, _) => (some (selectMkRes rb (OneOf.A a)), { s with inner := none })
      | (none, b') => (none, { s with inner := some (a, b') })
    else
      match pollA a (tokens.inter s.aTokens) with
      | (some ra, _) => (some (selectMkRes ra (OneOf.B b)), { s with inner := none })
      | (none, a') =>
        if s.bTokens.mayContain tokens = false then
          (none, { s with inner := some (a', b) })
        else
          match pollB b (tokens.inter s.bTokens) with
          | (some rb, _) => (some (selectMkRes rb (OneOf.A a')), { s with inner := none })
          | (none, b') => (none, { s with inner := some (a', b') })

/-- `Select::schedule` (`select.rs` lines 103–112): schedule both children,
cache their token sets, and return the union; an exhausted `Select` gets
`util::done`. -/
def selectSchedule {σa σb : Type} (schedA : σa → Tokens × σa)
    (schedB : σb → Tokens × σb) (s : SelectState σa σb) :
    Tokens × SelectState σa σb :=
  match s.inner with
  | some (a, b) =>
      let (ta, a') := schedA a
      let (tb, b') := schedB b
      (ta.union tb,
       { inner := some (a', b'), aTokens := ta, bTokens := tb })
  | none => (utilDoneTokens, s)

/-- `Select::tailcall` (`select.rs` lines 114–122): collapse both children
(when still present) and return `None` — the `Select` itself never
collapses. -/
def selectTailcall {σa σb β : Type} (collapseA : σa → σa)
    (collapseB : σb → σb) (s : SelectState σa σb) :
    Option β × SelectState σa σb :=
  match s.inner with
  | some (a, b) => (none, { s with inner := some (collapseA a, collapseB b) })
  | none => (none, s)

/-- The state of a `SelectNext` (`select.rs` lines 26–33): the losing
child, each variant held as a `Collapsed`. -/
def SelectNextState (αa αb β : Type) := OneOf (Collapsed αa β) (Collapsed αb β)

/-- `SelectNext::poll` (`select.rs` lines 131–136): delegate to the wrapped
child. -/
def selectNextPoll {αa αb β R : Type} (pa : αa → Tokens → R × αa)
    (pb : αb → Tokens → R × αb) (pβ : β → Tokens → R × β)
    (s : SelectNextState αa αb β) (tk : Tokens) :
    R × SelectNextState αa αb β :=
  match s with
  | .A ca => let (r, ca') := ca.pollC pa pβ tk; (r, .A ca')
  | .B cb => let (r, cb') := cb.pollC pb pβ tk; (r, .B cb')

/-- `SelectNext::tailcall` (`select.rs` lines 145–157): collapse the
wrapped child; if it is now a `Tail`, hand out the boxed replacement,
leaving `empty()` in its place (`mem::replace`). -/
def selectNextTailcall {αa αb β : Type} (tcA : αa → Option β)
    (tcB : αb → Option β) (emptyBox : β) (s : SelectNextState αa αb β) :
    Option β × SelectNextState αa αb β :=
  let s1 : SelectNextState αa αb β :=
    match s with
    | .A ca => .A (ca.collapse tcA)
    | .B cb => .B (cb.collapse tcB)
  match s1 with
  | .A (.tail bx) => (some bx, .A (.tail emptyBox))
  | .B (.tail bx) => (some bx, .B (.tail emptyBox))
  | _ => (none, s1)

/-!
## Claim theorems
-/

/-- C8: the first poll of `done(r)` yields `Some(Ok(v))` for `r = Ok(v)`
and `Some(Err(PollError::Other(e)))` for `r = Err(e)`; the first poll of
`failed(e)` yields `Some(Err(PollError::Other(e)))`; and `failed(e)`
behaves as `done(Err(e))` in every stored state — the poll results agree
and the post-states correspond under the `Err` injection. -/
theorem done_failed_first_poll {T E : Type} (v : T) (e : E) (tk : Tokens) :
    donePoll (doneNew (RResult.ok v) : DoneState T E) tk = (some (.ok v), none)
    ∧ donePoll (doneNew (RResult.err e) : DoneState T E) tk =
        (some (.err (.other e)), none)
    ∧ failedPoll (failedNew e) tk =
        ((some (.err (.other e)) : Option (PollResult T E)), none)
    ∧ ∀ (oe : Option E) (tk' : Tokens),
        (failedPoll (T := T) oe tk').1 = (donePoll (oe.map RResult.err) tk').1
        ∧ ((failedPoll (T := T) oe tk').2).map (RResult.err (T := T)) =
            (donePoll (oe.map RResult.err) tk').2 := by
  refine ⟨rfl, rfl, rfl, fun oe tk' => ?_⟩
  cases oe <;> exact ⟨rfl, rfl⟩

/-- C10: `Done::poll` ignores its token-filter argument entirely — for any
stored state the result under any two filters is identical. -/
theorem done_poll_token_insensitive {T E : Type} (s : DoneState T E)
    (t1 t2 : Tokens) : donePoll s t1 = donePoll s t2 := rfl

/-- C4: `Promise::poll` returns `None` and leaves the state (in particular
the slot) untouched whenever `pending_wake` is set; and with
`pending_wake` clear, the promise not yet used, and the slot empty, it
also returns `None` without fabricating a terminal result. -/
theorem promise_poll_guard {T E : Type} (s : PromiseState T E) (tk : Tokens) :
    (s.pendingWake = true → promisePoll s tk = (none, s, []))
    ∧ (s.pendingWake = false → s.used = false → s.slotVal = none →
        promisePoll s tk = (none, s, [])) := by
  constructor
  · intro h
    simp [promisePoll, h]
  · intro hpw hu hs
    simp [promisePoll, promiseTryConsume, hpw, hu, hs]

/-- Witness for C4 at a concrete promise state. -/
theorem promise_poll_guard_witness :
    ((promiseNew ℕ ℕ 0).pendingWake = false
      ∧ promisePoll { promiseNew ℕ ℕ 0 with pendingWake := true }
          Tokens.all = (none, { promiseNew ℕ ℕ 0 with pendingWake := true }, [])
      ∧ promisePoll (promiseNew ℕ ℕ 0) Tokens.all = (none, promiseNew ℕ ℕ 0, [])) :=
  ⟨rfl,
   (promise_poll_guard { promiseNew ℕ ℕ 0 with pendingWake := true } Tokens.all).1 rfl,
   (promise_poll_guard (promiseNew ℕ ℕ 0) Tokens.all).2 rfl rfl rfl⟩

/-- C3: dropping the `Complete` of a not-yet-completed pair without
`finish`/`fail` produces `None` into the shared slot, and the next
`Promise::poll` with `pending_wake` clear reports
`PollError::Panicked(Canceled)`. -/
theorem promise_cancel_on_drop {T E : Type} (s : PromiseState T E)
    (hslot : s.slotVal = none) (hq : s.slotOnEmpty = none) :
    ((completeDrop false s).1).slotVal = some none
    ∧ ∀ tk : Tokens, ((completeDrop false s).1).pendingWake = false →
        (promisePoll ((completeDrop false s).1) tk).1 =
          some (.err (.panicked .canceled)) := by
  cases hof : s.slotOnFull with
  | some tkn =>
      refine ⟨?_, fun tk hpw => ?_⟩ <;>
        simp [completeDrop, completeComplete, promiseProduce, promisePoll,
          promiseTryConsume, hslot, hq, hof]
  | none =>
      refine ⟨?_, fun tk hpw => ?_⟩
      · simp [completeDrop, completeComplete, promiseProduce, hslot, hof]
      · simp [completeDrop, completeComplete, promiseProduce, hslot, hof] at hpw
        simp [completeDrop, completeComplete, promiseProduce, promisePoll,
          promiseTryConsume, hslot, hq, hof, hpw]

/-- Witness for C3 at a fresh `promise()` pair. -/
theorem promise_cancel_on_drop_witness :
    ((completeDrop false (promiseNew ℕ ℕ 0)).1).slotVal = some none
    ∧ (promisePoll ((completeDrop false (promiseNew ℕ ℕ 0)).1) Tokens.all).1 =
        some (.err (.panicked .canceled)) :=
  ⟨(promise_cancel_on_drop (promiseNew ℕ ℕ 0) rfl rfl).1,
   (promise_cancel_on_drop (promiseNew ℕ ℕ 0) rfl rfl).2 Tokens.all rfl⟩

/-- C1: the one-shot contract.  Whenever `Done::poll`, `Promise::poll`
(on a state with no queued `on_empty` production) or `Select::poll`
returns `Some(_)`, the immediately following `poll` of the resulting state
returns `Some(Err(PollError::Panicked(_)))` with the "reused" payload —
not `None` and not a second result. -/
theorem one_shot_reused {T E σa σb : Type} :
    (∀ (s : DoneState T E) (tk : Tokens) (r : PollResult T E)
        (s' : DoneState T E) (tk' : Tokens),
        donePoll s tk = (some r, s') →
        donePoll s' tk' = (some (.err (.panicked .reused)), none))
    ∧ (∀ (s : PromiseState T E) (tk : Tokens) (r : PollResult T E)
        (s' : PromiseState T E) (em : List Tokens) (tk' : Tokens),
        s.slotOnEmpty = none →
        promisePoll s tk = (some r, s', em) →
        promisePoll s' tk' =
          (some (.err (.panicked .reused)), { s' with used := true }, []))
    ∧ (∀ (pollA pollA' : σa → Tokens → Option (PollResult T E) × σa)
        (pollB pollB' : σb → Tokens → Option (PollResult T E) × σb)
        (s : SelectState σa σb) (tk : Tokens)
        (r : PollResult (T × OneOf σa σb) (E × OneOf σa σb))
        (s' : SelectState σa σb) (tk' : Tokens),
        selectPoll pollA pollB s tk = (some r, s') →
        selectPoll pollA' pollB' s' tk' =
          (some (.err (.panicked .reused)), s')) := by
  refine ⟨fun s tk r s' tk' h => ?_, fun s tk r s' em tk' hq h => ?_,
    fun pollA pollA' pollB pollB' s tk r s' tk' h => ?_⟩
  · have hsnd : (donePoll s tk).2 = none := by
      rcases s with - | r0
      · rfl
      · cases r0 <;> rfl
    rcases hd : donePoll s tk with ⟨r?, s2⟩
    rw [hd] at h hsnd
    injection h with h1 h2
    subst h2
    simp at hsnd
    subst hsnd
    rfl
  · cases hpw : s.pendingWake with
    | true =>
      rw [show promisePoll s tk = (none, s, []) by simp [promisePoll, hpw]] at h
      injection h with h1 h2
      simp at h1
    | false =>
      cases hsv : s.slotVal with
      | none =>
        cases hu : s.used with
        | false =>
          rw [show promisePoll s tk = (none, s, []) by
            simp [promisePoll, promiseTryConsume, hpw, hsv, hu]] at h
          injection h with h1 h2
          simp at h1
        | true =>
          rw [show promisePoll s tk =
              (some (.err (.panicked .reused)), { s with used := true }, []) by
            simp [promisePoll, promiseTryConsume, hpw, hsv, hu]] at h
          injection h with h1 h23
          injection h23 with h2 h3
          subst h2
          simp [promisePoll, promiseTryConsume, hpw, hsv, hq]
      | some v =>
        have hstep : promiseTryConsume s =
            (some v, { s with slotVal := none }, []) := by
          simp [promiseTryConsume, hsv, hq]
        rcases v with - | rv
        · rw [show promisePoll s tk =
              (some (.err (.panicked .canceled)),
               { s with slotVal := none, used := true }, []) by
            simp [promisePoll, hstep, hpw]] at h
          injection h with h1 h23
          injection h23 with h2 h3
          subst h2
          simp [promisePoll, promiseTryConsume, hpw, hq]
        · rcases rv with w | w
          · rw [show promisePoll s tk =
                (some (.ok w), { s with slotVal := none, used := true }, []) by
              simp [promisePoll, hstep, hpw]] at h
            injection h with h1 h23
            injection h23 with h2 h3
            subst h2
            simp [promisePoll, promiseTryConsume, hpw, hq]
          · rw [show promisePoll s tk =
                (some (.err (.other w)),
                 { s with slotVal := none, used := true }, []) by
              simp [promisePoll, hstep, hpw]] at h
            injection h with h1 h23
            injection h23 with h2 h3
            subst h2
            simp [promisePoll, promiseTryConsume, hpw, hq]
  · have hinner : s'.inner = none := by
      rcases hi : s.inner with - | ⟨a, b⟩
      · rw [show selectPoll pollA pollB s tk = (some (.err utilReused), s) by
          simp [selectPoll, hi]] at h
        injection h with h1 h2
        subst h2
        exact hi
      · cases hma : s.aTokens.mayContain tk with
        | false =>
          rcases hb : pollB b (tk.inter s.bTokens) with ⟨x, b'⟩
          cases x with
          | some rb =>
            rw [show selectPoll pollA pollB s tk =
                (some (selectMkRes rb (OneOf.A a)), { s with inner := none }) by
              simp [selectPoll, hi, hma, hb]] at h
            injection h with h1 h2
            subst h2
            rfl
          | none =>
            rw [show selectPoll pollA pollB s tk =
                (none, { s with inner := some (a, b') }) by
              simp [selectPoll, hi, hma, hb]] at h
            injection h with h1 h2
            simp at h1
        | true =>
          rcases ha : pollA a (tk.inter s.aTokens) with ⟨x, a'⟩
          cases x with
          | some ra =>
            rw [show selectPoll pollA pollB s tk =
                (some (selectMkRes ra (OneOf.B b)), { s with inner := none }) by
              simp [selectPoll, hi, hma, ha]] at h
            injection h with h1 h2
            subst h2
            rfl
          | none =>
            cases hmb : s.bTokens.mayContain tk with
            | false =>
              rw [show selectPoll pollA pollB s tk =
                  (none, { s with inner := some (a', b) }) by
                simp [selectPoll, hi, hma, ha, hmb]] at h
              injection h with h1 h2
              simp at h1
            | true =>
              rcases hb : pollB b (tk.inter s.bTokens) with ⟨y, b'⟩
              cases y with
              | some rb =>
                rw [show selectPoll pollA pollB s tk =
                    (some (selectMkRes rb (OneOf.A a')),
                     { s with inner := none }) by
                  simp [selectPoll, hi, hma, ha, hmb, hb]] at h
                injection h with h1 h2
                subst h2
                rfl
              | none =>
                rw [show selectPoll pollA pollB s tk =
                    (none, { s with inner := some (a', b') }) by
                  simp [selectPoll, hi, hma, ha, hmb, hb]] at h
                injection h with h1 h2
                simp at h1
    simp [selectPoll, hinner, utilReused]

/-- Witness for C1: a `Done`, a fulfilled `Promise` and a decided `Select`
each report the "reused" abort on the poll after their terminal poll. -/
theorem one_shot_reused_witness :
    donePoll (doneNew (RResult.ok 1) : DoneState ℕ ℕ) Tokens.all =
      (some (.ok 1), none)
    ∧ donePoll (none : DoneState ℕ ℕ) Tokens.all =
        (some (.err (.panicked .reused)), none)
    ∧ promisePoll
        { promiseNew ℕ ℕ 0 with slotVal := some (some (RResult.ok 5)) }
        Tokens.all =
        (some (.ok 5),
         { promiseNew ℕ ℕ 0 with slotVal := none, used := true }, [])
    ∧ promisePoll { promiseNew ℕ ℕ 0 with slotVal := none, used := true }
        Tokens.all =
        (some (.err (.panicked .reused)),
         { promiseNew ℕ ℕ 0 with slotVal := none, used := true }, [])
    ∧ selectPoll donePoll donePoll
        (selectNew (doneNew (RResult.ok 1) : DoneState ℕ ℕ)
          (doneNew (RResult.ok 2))) Tokens.all =
        (some (.ok (1, OneOf.B (doneNew (RResult.ok 2)))),
         { inner := none, aTokens := Tokens.all, bTokens := Tokens.all })
    ∧ selectPoll donePoll donePoll
        ({ inner := none, aTokens := Tokens.all, bTokens := Tokens.all } :
          SelectState (DoneState ℕ ℕ) (DoneState ℕ ℕ)) Tokens.all =
        (some (.err (.panicked .reused)),
         { inner := none, aTokens := Tokens.all, bTokens := Tokens.all }) := by
  refine ⟨rfl, ?_, rfl, ?_, rfl, ?_⟩
  · exact (@one_shot_reused ℕ ℕ (DoneState ℕ ℕ) (DoneState ℕ ℕ)).1
      (doneNew (RResult.ok 1)) Tokens.all _ _ Tokens.all rfl
  · exact (@one_shot_reused ℕ ℕ (DoneState ℕ ℕ) (DoneState ℕ ℕ)).2.1
      { promiseNew ℕ ℕ 0 with slotVal := some (some (RResult.ok 5)) }
      Tokens.all _ _ _ Tokens.all rfl rfl
  · exact (one_shot_reused).2.2 donePoll donePoll donePoll donePoll
      (selectNew (doneNew (RResult.ok 1)) (doneNew (RResult.ok 2)))
      Tokens.all _ _ Tokens.all rfl

/-- C6: for a promise that has not yet yielded its value (and whose slot is
still empty), `schedule` returns the singleton token set of the promise's
token ID, leaves the new `on_full` registration as the only one (any
previous registration is cancelled or overwritten), sets `pending_wake`,
and the installed callback — run when the slot is filled — clears
`pending_wake` and invokes `wake` with exactly that token set. -/
theorem promise_schedule_contract {T E : Type} (s : PromiseState T E)
    (hused : s.used = false) (hslot : s.slotVal = none) :
    promiseSchedule s =
      (Tokens.fromUsize s.token,
       { s with
          pendingWake := true,
          cancelToken := true,
          slotOnFull := some (Tokens.fromUsize s.token) }, [])
    ∧ ∀ v : Option (RResult T E),
        promiseProduce
          ({ s with
              pendingWake := true,
              cancelToken := true,
              slotOnFull := some (Tokens.fromUsize s.token) }) v =
          ({ s with
              pendingWake := false,
              cancelToken := true,
              slotVal := some v,
              slotOnFull := none },
           [Tokens.fromUsize s.token], true) := by
  constructor
  · cases hpw : s.pendingWake <;> cases hct : s.cancelToken <;>
      simp [promiseSchedule, hused, hslot, hpw, hct]
  · intro v
    simp [promiseProduce, hslot]

/-- Witness for C6 at a concrete promise state that already carries a live
registration. -/
theorem promise_schedule_contract_witness :
    promiseSchedule
        { promiseNew ℕ ℕ 7 with
            pendingWake := true,
            cancelToken := true,
            slotOnFull := some (Tokens.fromUsize 7) } =
      (Tokens.fromUsize 7,
       { promiseNew ℕ ℕ 7 with
          pendingWake := true,
          cancelToken := true,
          slotOnFull := some (Tokens.fromUsize 7) }, [])
    ∧ promiseProduce
        { promiseNew ℕ ℕ 7 with
            pendingWake := true,
            cancelToken := true,
            slotOnFull := some (Tokens.fromUsize 7) }
        (some (RResult.ok 3)) =
        ({ promiseNew ℕ ℕ 7 with
            pendingWake := false,
            cancelToken := true,
            slotVal := some (some (RResult.ok 3)),
            slotOnFull := none },
         [Tokens.fromUsize 7], true) :=
  ⟨(promise_schedule_contract
      { promiseNew ℕ ℕ 7 with
          pendingWake := true,
          cancelToken := true,
          slotOnFull := some (Tokens.fromUsize 7) } rfl rfl).1,
   (promise_schedule_contract
      { promiseNew ℕ ℕ 7 with
          pendingWake := true,
          cancelToken := true,
          slotOnFull := some (Tokens.fromUsize 7) } rfl rfl).2
     (some (RResult.ok 3))⟩

/-- C2: the `Select` wake-filter algorithm.  With both children present:
when `a_tokens.may_contain(tokens)` is false, child A is skipped (the
result is the same for every A-poll function) and only B is polled, with
`tokens & b_tokens`; otherwise A is polled with `tokens & a_tokens`, and
when A returns `None` the poll returns `None` without polling B (for every
B-poll function) exactly when `b_tokens.may_contain(tokens)` is false,
else B is polled with `tokens & b_tokens`. -/
theorem select_wake_filter {T E σa σb : Type}
    (pollB : σb → Tokens → Option (PollResult T E) × σb)
    (s : SelectState σa σb) (tokens : Tokens) (a : σa) (b : σb)
    (hinner : s.inner = some (a, b)) :
    (s.aTokens.mayContain tokens = false →
      (∀ pollA pollA' : σa → Tokens → Option (PollResult T E) × σa,
          selectPoll pollA pollB s tokens = selectPoll pollA' pollB s tokens)
      ∧ (∀ (pollA : σa → Tokens → Option (PollResult T E) × σa) (b' : σb),
          pollB b (tokens.inter s.bTokens) = (none, b') →
          selectPoll pollA pollB s tokens =
            (none, { s with inner := some (a, b') }))
      ∧ (∀ (pollA : σa → Tokens → Option (PollResult T E) × σa)
          (rb : PollResult T E) (b' : σb),
          pollB b (tokens.inter s.bTokens) = (some rb, b') →
          selectPoll pollA pollB s tokens =
            (some (selectMkRes rb (OneOf.A a)), { s with inner := none })))
    ∧ (s.aTokens.mayContain tokens = true →
      ∀ pollA : σa → Tokens → Option (PollResult T E) × σa,
        (∀ (ra : PollResult T E) (a' : σa),
          pollA a (tokens.inter s.aTokens) = (some ra, a') →
          ∀ pollB' : σb → Tokens → Option (PollResult T E) × σb,
            selectPoll pollA pollB' s tokens =
              (some (selectMkRes ra (OneOf.B b)), { s with inner := none }))
        ∧ (∀ a' : σa, pollA a (tokens.inter s.aTokens) = (none, a') →
            (s.bTokens.mayContain tokens = false →
              ∀ pollB' : σb → Tokens → Option (PollResult T E) × σb,
                selectPoll pollA pollB' s tokens =
                  (none, { s with inner := some (a', b) }))
            ∧ (s.bTokens.mayContain tokens = true →
              (∀ b' : σb, pollB b (tokens.inter s.bTokens) = (none, b') →
                selectPoll pollA pollB s tokens =
                  (none, { s with inner := some (a', b') }))
              ∧ (∀ (rb : PollResult T E) (b' : σb),
                  pollB b (tokens.inter s.bTokens) = (some rb, b') →
                  selectPoll pollA pollB s tokens =
                    (some (selectMkRes rb (OneOf.A a')),
                     { s with inner := none }))))) := by
  constructor
  · intro hma
    refine ⟨fun pollA pollA' => ?_, fun pollA b' hb => ?_, fun pollA rb b' hb => ?_⟩
    · rcases hb : pollB b (tokens.inter s.bTokens) with ⟨x, b'⟩
      cases x <;> simp [selectPoll, hinner, hma, hb]
    · simp [selectPoll, hinner, hma, hb]
    · simp [selectPoll, hinner, hma, hb]
  · intro hma pollA
    refine ⟨fun ra a' ha pollB' => ?_,
      fun a' ha => ⟨fun hmb pollB' => ?_,
        fun hmb => ⟨fun b' hb => ?_, fun rb b' hb => ?_⟩⟩⟩
    · simp [selectPoll, hinner, hma, ha]
    · simp [selectPoll, hinner, hma, ha, hmb]
    · simp [selectPoll, hinner, hma, ha, hmb, hb]
    · simp [selectPoll, hinner, hma, ha, hmb, hb]

/-- Witness for C2: a filter disjoint from `a_tokens` skips A and lets B
win; a filter meeting `a_tokens` lets A win. -/
theorem select_wake_filter_witness :
    selectPoll donePoll donePoll
      ({ inner := some (doneNew (RResult.ok 1), doneNew (RResult.ok 5)),
         aTokens := Tokens.fromUsize 1, bTokens := Tokens.fromUsize 2 } :
        SelectState (DoneState ℕ ℕ) (DoneState ℕ ℕ))
      (Tokens.fromUsize 2) =
      (some (.ok (5, OneOf.A (doneNew (RResult.ok 1)))),
       { inner := none, aTokens := Tokens.fromUsize 1,
         bTokens := Tokens.fromUsize 2 })
    ∧ selectPoll donePoll donePoll
      ({ inner := some (doneNew (RResult.ok 1), doneNew (RResult.ok 5)),
         aTokens := Tokens.fromUsize 1, bTokens := Tokens.fromUsize 2 } :
        SelectState (DoneState ℕ ℕ) (DoneState ℕ ℕ))
      (Tokens.fromUsize 1) =
      (some (.ok (1, OneOf.B (doneNew (RResult.ok 5)))),
       { inner := none, aTokens := Tokens.fromUsize 1,
         bTokens := Tokens.fromUsize 2 }) :=
  ⟨((select_wake_filter donePoll
      ({ inner := some (doneNew (RResult.ok 1), doneNew (RResult.ok 5)),
         aTokens := Tokens.fromUsize 1, bTokens := Tokens.fromUsize 2 } :
        SelectState (DoneState ℕ ℕ) (DoneState ℕ ℕ))
      (Tokens.fromUsize 2) (doneNew (RResult.ok 1)) (doneNew (RResult.ok 5))
      rfl).1 (by decide)).2.2 donePoll (RResult.ok 5) none rfl,
   (((select_wake_filter donePoll
      ({ inner := some (doneNew (RResult.ok 1), doneNew (RResult.ok 5)),
         aTokens := Tokens.fromUsize 1, bTokens := Tokens.fromUsize 2 } :
        SelectState (DoneState ℕ ℕ) (DoneState ℕ ℕ))
      (Tokens.fromUsize 1) (doneNew (RResult.ok 1)) (doneNew (RResult.ok 5))
      rfl).2 (by decide) donePoll).1 (RResult.ok 1) none rfl donePoll)⟩

/-- C7: with both children pending, `Select::schedule` returns the union
of the children's returned token sets (caching them), hence a superset of
each. -/
theorem select_schedule_union {σa σb : Type} (schedA : σa → Tokens × σa)
    (schedB : σb → Tokens × σb) (s : SelectState σa σb) (a : σa) (b : σb)
    (h : s.inner = some (a, b)) :
    (selectSchedule schedA schedB s).1 = ((schedA a).1).union ((schedB b).1)
    ∧ (selectSchedule schedA schedB s).2 =
        { inner := some ((schedA a).2, (schedB b).2),
          aTokens := (schedA a).1, bTokens := (schedB b).1 }
    ∧ ∀ n : ℕ,
        (Tokens.mem n ((schedA a).1) →
          Tokens.mem n ((selectSchedule schedA schedB s).1))
        ∧ (Tokens.mem n ((schedB b).1) →
          Tokens.mem n ((selectSchedule schedA schedB s).1)) := by
  rcases hA : schedA a with ⟨ta, a'⟩
  rcases hB : schedB b with ⟨tb, b'⟩
  have hsel : selectSchedule schedA schedB s =
      (ta.union tb, { inner := some (a', b'), aTokens := ta, bTokens := tb }) := by
    simp [selectSchedule, h, hA, hB]
  refine ⟨by simp [hsel], by simp [hsel], fun n => ⟨fun hm => ?_, fun hm => ?_⟩⟩
  · rw [hsel]
    cases ta <;> cases tb <;>
      simp_all [Tokens.union, Tokens.mem, Finset.mem_union]
  · rw [hsel]
    cases ta <;> cases tb <;>
      simp_all [Tokens.union, Tokens.mem, Finset.mem_union]

/-- Witness for C7 with two concrete singleton-token children. -/
theorem select_schedule_union_witness :
    (selectSchedule (fun x : DoneState ℕ ℕ => (Tokens.fromUsize 1, x))
        (fun y : DoneState ℕ ℕ => (Tokens.fromUsize 2, y))
        (selectNew (doneNew (RResult.ok 0)) (doneNew (RResult.ok 0)))).1 =
      (Tokens.fromUsize 1).union (Tokens.fromUsize 2)
    ∧ Tokens.mem 1
        ((selectSchedule (fun x : DoneState ℕ ℕ => (Tokens.fromUsize 1, x))
          (fun y : DoneState ℕ ℕ => (Tokens.fromUsize 2, y))
          (selectNew (doneNew (RResult.ok 0)) (doneNew (RResult.ok 0)))).1)
    ∧ Tokens.mem 2
        ((selectSchedule (fun x : DoneState ℕ ℕ => (Tokens.fromUsize 1, x))
          (fun y : DoneState ℕ ℕ => (Tokens.fromUsize 2, y))
          (selectNew (doneNew (RResult.ok 0)) (doneNew (RResult.ok 0)))).1) :=
  ⟨(select_schedule_union _ _ _ _ _ rfl).1,
   ((select_schedule_union _ _ _ _ _ rfl).2.2 1).1
     (by simp [Tokens.mem, Tokens.fromUsize]),
   ((select_schedule_union _ _ _ _ _ rfl).2.2 2).2
     (by simp [Tokens.mem, Tokens.fromUsize])⟩

/-- C5 (amended): the outcome shape of `select(a, b)` for any winning
child.  A winning `Ok(v)` yields `Ok((v, next))` with the loser in
`next`; a winning `Err(Other(e))` yields `Err(Other((e, next)))` carrying
the loser; a winning `Err(Panicked(p))` yields `Err(Panicked(p))` with
the payload unchanged — the losing child is discarded, not carried
(`PollError::map` leaves the `Panicked` payload untouched).  The branch
equations cover A winning, B winning with A skipped (loser `OneOf.A a`,
the untouched child), and B winning after A's `None` (loser `OneOf.A a'`,
the polled child). -/
theorem select_outcome_shape {T E σa σb : Type}
    (pollA : σa → Tokens → Option (PollResult T E) × σa)
    (pollB : σb → Tokens → Option (PollResult T E) × σb)
    (s : SelectState σa σb) (tokens : Tokens) (a : σa) (b : σb)
    (hinner : s.inner = some (a, b)) :
    (∀ (v : T) (next : OneOf σa σb),
        @selectMkRes T E σa σb (.ok v) next = .ok (v, next))
    ∧ (∀ (e : E) (next : OneOf σa σb),
        @selectMkRes T E σa σb (.err (.other e)) next =
          .err (.other (e, next)))
    ∧ (∀ (p : Panic) (next : OneOf σa σb),
        @selectMkRes T E σa σb (.err (.panicked p)) next =
          .err (.panicked p))
    ∧ (∀ (ra : PollResult T E) (a' : σa),
        s.aTokens.mayContain tokens = true →
        pollA a (tokens.inter s.aTokens) = (some ra, a') →
        selectPoll pollA pollB s tokens =
          (some (selectMkRes ra (OneOf.B b)), { s with inner := none }))
    ∧ (∀ (rb : PollResult T E) (b' : σb),
        s.aTokens.mayContain tokens = false →
        pollB b (tokens.inter s.bTokens) = (some rb, b') →
        selectPoll pollA pollB s tokens =
          (some (selectMkRes rb (OneOf.A a)), { s with inner := none }))
    ∧ (∀ (a' : σa) (rb : PollResult T E) (b' : σb),
        s.aTokens.mayContain tokens = true →
        pollA a (tokens.inter s.aTokens) = (none, a') →
        s.bTokens.mayContain tokens = true →
        pollB b (tokens.inter s.bTokens) = (some rb, b') →
        selectPoll pollA pollB s tokens =
          (some (selectMkRes rb (OneOf.A a')), { s with inner := none })) := by
  refine ⟨fun v next => rfl, fun e next => rfl, fun p next => rfl,
    fun ra a' hma hpa => ?_, fun rb b' hma hpb => ?_,
    fun a' rb b' hma hpa hmb hpb => ?_⟩
  · simp [selectPoll, hinner, hma, hpa]
  · simp [selectPoll, hinner, hma, hpb]
  · simp [selectPoll, hinner, hma, hpa, hmb, hpb]

/-- Witness for C5's amended claim: an A-winner failing with
`PollError::Other` carries the loser as `OneOf.B`; a B-winner with A
skipped by the filter carries the untouched A as `OneOf.A`; a B-winner
after A's `None` carries the polled A as `OneOf.A`. -/
theorem select_outcome_shape_witness :
    selectPoll donePoll donePoll
      (selectNew (doneNew (RResult.err 3) : DoneState ℕ ℕ)
        (doneNew (RResult.ok 2))) Tokens.all =
      (some (.err (.other (3, OneOf.B (doneNew (RResult.ok 2))))),
       { inner := none, aTokens := Tokens.all, bTokens := Tokens.all })
    ∧ selectPoll donePoll donePoll
      ({ inner := some (doneNew (RResult.ok 1), doneNew (RResult.err 7)),
         aTokens := Tokens.fromUsize 1, bTokens := Tokens.fromUsize 2 } :
        SelectState (DoneState ℕ ℕ) (DoneState ℕ ℕ))
      (Tokens.fromUsize 2) =
      (some (.err (.other (7, OneOf.A (doneNew (RResult.ok 1))))),
       { inner := none, aTokens := Tokens.fromUsize 1,
         bTokens := Tokens.fromUsize 2 })
    ∧ selectPoll (fun (u : Unit) (_ : Tokens) =>
          ((none : Option (PollResult ℕ ℕ)), u)) donePoll
      (selectNew () (doneNew (RResult.ok 9) : DoneState ℕ ℕ)) Tokens.all =
      (some (.ok (9, OneOf.A ())),
       { inner := none, aTokens := Tokens.all, bTokens := Tokens.all }) := by
  refine ⟨?_, ?_, ?_⟩
  · have h := select_outcome_shape donePoll donePoll
      (selectNew (doneNew (RResult.err 3) : DoneState ℕ ℕ)
        (doneNew (RResult.ok 2))) Tokens.all
      (doneNew (RResult.err 3)) (doneNew (RResult.ok 2)) rfl
    rw [h.2.2.2.1 (RResult.err (PollError.other 3)) none rfl rfl,
      h.2.1 3 (OneOf.B (doneNew (RResult.ok 2)))]
    rfl
  · have h := select_outcome_shape donePoll donePoll
      ({ inner := some (doneNew (RResult.ok 1), doneNew (RResult.err 7)),
         aTokens := Tokens.fromUsize 1, bTokens := Tokens.fromUsize 2 } :
        SelectState (DoneState ℕ ℕ) (DoneState ℕ ℕ))
      (Tokens.fromUsize 2) (doneNew (RResult.ok 1)) (doneNew (RResult.err 7))
      rfl
    rw [h.2.2.2.2.1 (RResult.err (PollError.other 7)) none (by decide) rfl,
      h.2.1 7 (OneOf.A (doneNew (RResult.ok 1)))]
  · have h := select_outcome_shape
      (fun (u : Unit) (_ : Tokens) => ((none : Option (PollResult ℕ ℕ)), u))
      donePoll (selectNew () (doneNew (RResult.ok 9) : DoneState ℕ ℕ))
      Tokens.all () (doneNew (RResult.ok 9)) rfl
    rw [h.2.2.2.2.2 () (RResult.ok 9) none rfl rfl rfl rfl,
      h.1 9 (OneOf.A ())]
    rfl

/-- Counterexample for C5 as stated: when the winner fails with
`Panicked`, the propagated error is the winner's `Panicked` payload
unchanged — it does not carry the losing child, as shown by the result
being identical for two different losers. -/
theorem select_panicked_drops_loser :
    selectPoll donePoll donePoll
      (selectNew (none : DoneState ℕ ℕ) (doneNew (RResult.ok 2)))
      Tokens.all =
      (some (.err (.panicked .reused)),
       { inner := none, aTokens := Tokens.all, bTokens := Tokens.all })
    ∧ (selectPoll donePoll donePoll
        (selectNew (none : DoneState ℕ ℕ) (doneNew (RResult.ok 2)))
        Tokens.all).1 =
      (selectPoll donePoll donePoll
        (selectNew (none : DoneState ℕ ℕ) (doneNew (RResult.ok 99)))
        Tokens.all).1 :=
  ⟨rfl, rfl⟩

/-- C9: `tailcall` idempotence.  `Select::tailcall` always returns `None`,
and applying it twice (with the children's `Collapsed::collapse`) leaves
the same state as applying it once; `SelectNext::tailcall` applied twice —
also after it has handed out its collapsed child — leaves the same state
as applying it once; and the leaf `tailcall`s (`Done`, `Failed`,
`Promise`) return `None` without any state change. -/
theorem tailcall_idempotent :
    (∀ (σa σb γ : Type) (cA : σa → σa) (cB : σb → σb)
        (s : SelectState σa σb),
        (selectTailcall (β := γ) cA cB s).1 = none)
    ∧ (∀ (αa αb βt γ : Type) (tcA : αa → Option βt) (tcB : αb → Option βt)
        (s : SelectState (Collapsed αa βt) (Collapsed αb βt)),
        (selectTailcall (β := γ) (Collapsed.collapse tcA)
          (Collapsed.collapse tcB)
          ((selectTailcall (β := γ) (Collapsed.collapse tcA)
            (Collapsed.collapse tcB) s).2)).2 =
        (selectTailcall (β := γ) (Collapsed.collapse tcA)
          (Collapsed.collapse tcB) s).2)
    ∧ (∀ (αa αb βt : Type) (tcA : αa → Option βt) (tcB : αb → Option βt)
        (emptyBox : βt) (s : SelectNextState αa αb βt),
        (selectNextTailcall tcA tcB emptyBox
          ((selectNextTailcall tcA tcB emptyBox s).2)).2 =
        (selectNextTailcall tcA tcB emptyBox s).2)
    ∧ (∀ (T E γ : Type) (s : DoneState T E),
        doneTailcall (β := γ) s = (none, s))
    ∧ (∀ (E γ : Type) (s : FailedState E),
        failedTailcall (β := γ) s = (none, s))
    ∧ (∀ (T E γ : Type) (s : PromiseState T E),
        promiseTailcall (β := γ) s = (none, s)) := by
  have hcc : ∀ (α β : Type) (tc : α → Option β) (c : Collapsed α β),
      Collapsed.collapse tc (Collapsed.collapse tc c) =
        Collapsed.collapse tc c := by
    intro α β tc c
    cases c with
    | start a => cases h : tc a <;> simp [Collapsed.collapse, h]
    | tail b => rfl
  refine ⟨fun σa σb γ cA cB s => ?_, fun αa αb βt γ tcA tcB s => ?_,
    fun αa αb βt tcA tcB emptyBox s => ?_,
    fun T E γ s => rfl, fun E γ s => rfl, fun T E γ s => rfl⟩
  · rcases hi : s.inner with - | ⟨a, b⟩ <;> simp [selectTailcall, hi]
  · rcases hi : s.inner with - | ⟨ca, cb⟩ <;>
      simp [selectTailcall, hi, hcc]
  · rcases s with ca | cb
    · cases ca with
      | start a =>
        cases h : tcA a <;>
          simp [selectNextTailcall, Collapsed.collapse, h]
      | tail bx => simp [selectNextTailcall, Collapsed.collapse]
    · cases cb with
      | start b =>
        cases h : tcB b <;>
          simp [selectNextTailcall, Collapsed.collapse, h]
      | tail bx => simp [selectNextTailcall, Collapsed.collapse]

end Futures

